import Mathlib

/-!
Shallow embedding of the real-estate scraping pipeline in `src/final1.py`
(`BasicRealEstateScraper`).

Modelling choices:
* Numeric values (prices, sentiment polarities, keyword scores) are exact
  rationals `ℚ`; the claims under study are about which token is parsed and
  about presence/absence, not about binary floating-point rounding.
* A markup card is a record of the four optional sub-elements the code reads
  (`mb-srp__card__price` text, title text, area text, and the first `<a>`
  together with its optional `href`).
* External capabilities are function parameters: the sentiment model
  (`TextBlob(...).sentiment.polarity`) is `polarity : String → ℚ`, the HTTP
  fetch (`requests.get`) is `fetch : Nat → Except Unit Page`, and the RAKE
  ranker (`get_ranked_phrases_with_scores`) is `ranker : String → List (ℚ × String)`.
* A Python exception is `Except.error ()`; `None` is `Option.none`.
* `\d` of the Python regex is modelled as an ASCII digit and `str.strip()` as
  the structural `pyStrip`, adequate for the texts the claims quantify over.
-/

namespace RealEstate

instance {ε α : Type} [DecidableEq ε] [DecidableEq α] : DecidableEq (Except ε α) :=
  fun a b =>
    match a, b with
    | .ok x, .ok y => decidable_of_iff (x = y) (by simp)
    | .error x, .error y => decidable_of_iff (x = y) (by simp)
    | .ok _, .error _ => isFalse (by simp)
    | .error _, .ok _ => isFalse (by simp)

/-- Python `str.strip()`: remove leading and trailing whitespace. -/
def pyStrip (s : String) : String :=
  ⟨((s.data.dropWhile Char.isWhitespace).reverse.dropWhile Char.isWhitespace).reverse⟩

/-- Characters matched by the character class `[\d.]` of the regex
`re.search(r'[\d.]+', price_text)` in `extract_price`. -/
def isPriceChar (c : Char) : Bool := c.isDigit || c == '.'

/-- `re.search(r'[\d.]+', s)`: the first maximal run of digit-or-dot
characters of `s`, or `none` when no such character occurs. -/
def re_search_run (cs : List Char) : Option (List Char) :=
  match cs.dropWhile (fun c => !isPriceChar c) with
  | [] => none
  | c :: rest => some ((c :: rest).takeWhile isPriceChar)

/-- Value of a list of decimal digits, most significant first. -/
def digitsVal (cs : List Char) : Nat :=
  cs.foldl (fun a c => 10 * a + (c.toNat - 48)) 0

/-- Exact value of a digit-and-dot run that is a valid float literal:
integer part before the first dot, fractional part after it. -/
def runVal (run : List Char) : ℚ :=
  let ip := run.takeWhile (fun c => c != '.')
  let fp := (run.dropWhile (fun c => c != '.')).drop 1
  mkRat (digitsVal ip * 10 ^ fp.length + digitsVal fp) (10 ^ fp.length)

/-- Python `float(s)` applied to a string of digits and dots: succeeds iff the
string holds at least one digit and at most one dot (`float("1.2.3")` and
`float(".")` raise `ValueError`). -/
def pyFloat (run : List Char) : Except Unit ℚ :=
  if run.any Char.isDigit ∧ run.count '.' ≤ 1 then .ok (runVal run) else .error ()

/-- `BasicRealEstateScraper.extract_price` (src/final1.py:29-36):
`if not price_text: return None`, then `re.search(r'[\d.]+', price_text)`,
then `float(match.group())` when a match exists, else `None`. -/
def extract_price (price_text : Option String) : Except Unit (Option ℚ) :=
  match price_text with
  | none => .ok none
  | some t =>
      if t = "" then .ok none
      else
        match re_search_run t.toList with
        | none => .ok none
        | some run => (pyFloat run).map some

/-- `BasicRealEstateScraper.analyze_sentiment` (src/final1.py:38-43):
`if text:` guards the TextBlob call, so both `None` and the empty string
bypass the scorer and yield `None`. -/
def analyze_sentiment (polarity : String → ℚ) (text : Option String) : Option ℚ :=
  match text with
  | some t => if t = "" then none else some (polarity t)
  | none => none

/-- One property card of a results page: the optional texts of the price,
title and area blocks, and the first link (`none`: no `<a>` in the card;
`some none`: an `<a>` without `href`; `some (some h)`: an `<a>` with
`href = h`). -/
structure Card where
  priceText : Option String
  titleText : Option String
  areaText : Option String
  link : Option (Option String)
deriving DecidableEq

/-- One scraped listing record, the dict built at src/final1.py:70-76. -/
structure Listing where
  price : Option ℚ
  title : Option String
  area : Option String
  url : Option String
  sentiment : Option ℚ
deriving DecidableEq

/-- `card.find('a')['href']` on line 74: no link gives `None` for the whole
conditional expression, a link without `href` raises `KeyError`, a link with
`href` is prefixed with the base url. -/
def href_lookup (base_url : String) (link : Option (Option String)) :
    Except Unit (Option String) :=
  match link with
  | none => .ok none
  | some none => .error ()
  | some (some h) => .ok (some (base_url ++ h))

/-- Body of the per-card `try` block (src/final1.py:64-76): build the listing
dict. Evaluation order of the dict literal: the price value (which can raise
`ValueError` inside `float`) is computed before the url value (which can raise
`KeyError`); any exception aborts the card. -/
def process_card (polarity : String → ℚ) (base_url : String) (card : Card) :
    Except Unit Listing := do
  let title := card.titleText.map pyStrip
  let price ← extract_price (card.priceText.map pyStrip)
  let url ← href_lookup base_url card.link
  .ok { price := price, title := title, area := card.areaText.map pyStrip,
        url := url, sentiment := analyze_sentiment polarity title }

/-- Python truthiness of `listing['price']` (line 78): `None` and `0.0` are
falsy, every other float is truthy. -/
def truthyPrice : Option ℚ → Bool
  | none => false
  | some q => q != 0

/-- The card loop of `scrape_listings` (src/final1.py:63-84): a card whose
processing raises is skipped (`except ... continue`), and a processed listing
is appended only when `if listing['price']:` holds. -/
def process_cards (polarity : String → ℚ) (base_url : String) :
    List Card → List Listing
  | [] => []
  | c :: cs =>
      match process_card polarity base_url c with
      | .error _ => process_cards polarity base_url cs
      | .ok l =>
          if truthyPrice l.price then l :: process_cards polarity base_url cs
          else process_cards polarity base_url cs

/-- What the model keeps of an HTTP response once parsed: the status code of
`requests.get` and the cards found in the markup by
`soup.find_all('div', {'class': 'mb-srp__card'})`. -/
structure Page where
  status : Nat
  cards : List Card
deriving DecidableEq

/-- Observable events of one run of the page loop, in order: entering a page
iteration, logging a failed fetch (`status_code != 200`), and the pacing call
`sleep(2)`. -/
inductive Event where
  | pageStart : Nat → Event
  | fetchFail : Nat → Event
  | sleep : Event
deriving DecidableEq

/-- Body of the per-page `try` block of `scrape_listings`
(src/final1.py:50-90) for page `n`: a transport error (`except ... continue`)
or a `status_code != 200` makes the page contribute no listings and `continue`
past the `sleep(2)` call; a 200 page is parsed, its cards processed, and then
`sleep(2)` runs. -/
def process_page (polarity : String → ℚ) (base_url : String)
    (fetch : Nat → Except Unit Page) (n : Nat) : List Event × List Listing :=
  match fetch n with
  | .error _ => ([.pageStart n], [])
  | .ok pg =>
      if pg.status ≠ 200 then ([.pageStart n, .fetchFail n], [])
      else ([.pageStart n, .sleep], process_cards polarity base_url pg.cards)

/-- `range(1, max_pages + 1)`. -/
def pagesRange (maxPages : Nat) : List Nat := (List.range maxPages).map (· + 1)

/-- `BasicRealEstateScraper.scrape_listings` (src/final1.py:45-94): iterate
the pages in order, concatenating each page's trace of events and its
extracted listings into the run's trace and the accumulator `listings`. -/
def scrape_listings (polarity : String → ℚ) (base_url : String)
    (fetch : Nat → Except Unit Page) (maxPages : Nat) :
    List Event × List Listing :=
  (((pagesRange maxPages).map fun n => (process_page polarity base_url fetch n).1).flatten,
   ((pagesRange maxPages).map fun n => (process_page polarity base_url fetch n).2).flatten)

/-- One row of the keywords DataFrame built at src/final1.py:102. -/
structure KeywordEntry where
  score : ℚ
  keyword : String
deriving DecidableEq

/-- Helper for `dedupPairs`: keep the rows not seen before, first occurrences
first. -/
def dedupPairsAux (seen : List KeywordEntry) :
    List KeywordEntry → List KeywordEntry
  | [] => []
  | x :: xs =>
      if x ∈ seen then dedupPairsAux seen xs
      else x :: dedupPairsAux (x :: seen) xs

/-- `DataFrame.drop_duplicates()` with no subset: a row is dropped iff an
earlier row is equal in every column, i.e. equal as a (score, keyword) pair;
the first occurrence is kept. -/
def dedupPairs (l : List KeywordEntry) : List KeywordEntry := dedupPairsAux [] l

/-- Non-increasing order on scores used by
`sort_values(by='score', ascending=False)`. -/
def scoreGE (a b : KeywordEntry) : Prop := b.score ≤ a.score

instance : DecidableRel scoreGE := fun a b =>
  inferInstanceAs (Decidable (b.score ≤ a.score))

instance : IsTotal KeywordEntry scoreGE := ⟨fun a b => le_total b.score a.score⟩

instance : IsTrans KeywordEntry scoreGE := ⟨fun _ _ _ h1 h2 => le_trans h2 h1⟩

/-- Lines 102-104 of `analyze_keywords`, acting on the ranker's (score,
phrase) pairs: build the rows, `drop_duplicates()`, sort by score descending,
`head(20)`. -/
def process_keywords (pairs : List (ℚ × String)) : List KeywordEntry :=
  (((dedupPairs (pairs.map fun p => ⟨p.1, p.2⟩)).insertionSort scoreGE).take 20)

/-- `BasicRealEstateScraper.analyze_keywords` (src/final1.py:96-106).
`pd.DataFrame([])` has no columns at all, so on an empty listing collection
`df['title']` raises `KeyError`; otherwise the corpus is the titles (nulls
dropped) joined by single spaces, handed to the RAKE capability `ranker`. -/
def analyze_keywords (ranker : String → List (ℚ × String))
    (listings : List Listing) : Except Unit (List KeywordEntry) :=
  if listings.isEmpty then .error ()
  else .ok (process_keywords
    (ranker (String.intercalate " " (listings.filterMap Listing.title))))

/-- The amended price contract, stated as its own left-to-right scanner: at
the first digit-or-dot character of the text take the maximal digit-or-dot run
starting there; return its exact decimal value when that run is a valid float
literal (at least one digit, at most one dot), and raise otherwise; when no
digit-or-dot character occurs at all, return absent. -/
def spec_scan : List Char → Except Unit (Option ℚ)
  | [] => .ok none
  | c :: cs =>
      if isPriceChar c then
        let run := (c :: cs).takeWhile isPriceChar
        if run.any Char.isDigit ∧ run.count '.' ≤ 1 then .ok (some (runVal run))
        else .error ()
      else spec_scan cs

/-- The amended claim C1 as a standalone contract: absent or empty input is
absent, otherwise the text is settled by `spec_scan`. -/
def normalize_spec : Option String → Except Unit (Option ℚ)
  | none => .ok none
  | some t => if t = "" then .ok none else spec_scan t.toList

/-! Concrete fixtures used by witnesses and counterexamples. -/

/-- A constant sentiment model. -/
def polarity0 : String → ℚ := fun _ => 0

/-- A short base url. -/
def baseB : String := "b"

/-- A card with price `₹ 50 Lakh`, a title, an area and a link with `href`. -/
def card50 : Card := ⟨some "₹ 50 Lakh", some "2BHK Flat", some "650 sqft", some (some "/p1")⟩

/-- The listing that `card50` produces under `polarity0` and `baseB`. -/
def L50 : Listing := ⟨some 50, some "2BHK Flat", some "650 sqft", some "b/p1", some 0⟩

/-- A card whose price text parses to `0.0`. -/
def card0 : Card := ⟨some "0 Lakh", some "Zero", none, none⟩

/-- A card with a present price and a link that lacks the `href` attribute. -/
def cardNoHref : Card := ⟨some "50", some "T", none, some none⟩

/-- A card whose title block text is pure whitespace. -/
def cardWS : Card := ⟨some "50", some "   ", none, none⟩

/-- The listing that `cardWS` produces. -/
def LWS : Listing := ⟨some 50, some "", none, none, none⟩

/-- A fetch capability that always answers HTTP 500. -/
def fetch500 : Nat → Except Unit Page := fun _ => .ok ⟨500, []⟩

/-- A fetch capability that always answers HTTP 200 with the single card
`card50`. -/
def fetch200 : Nat → Except Unit Page := fun _ => .ok ⟨200, [card50]⟩

/-! Helper lemmas. -/

/-- `extract_price` follows the standalone scanner on every non-empty text. -/
theorem spec_scan_eq_search (cs : List Char) :
    spec_scan cs =
      match re_search_run cs with
      | none => .ok none
      | some run => (pyFloat run).map some := by
  induction cs with
  | nil => rfl
  | cons c cs ih =>
      by_cases hc : isPriceChar c = true
      · simp only [spec_scan, re_search_run, hc, if_true, List.dropWhile_cons,
          Bool.not_true, Bool.false_eq_true, if_false, pyFloat, Except.map]
        split <;> rfl
      · simp only [Bool.not_eq_true] at hc
        simp only [spec_scan, re_search_run, hc, Bool.false_eq_true, if_false,
          List.dropWhile_cons, Bool.not_false, if_true] at ih ⊢
        exact ih

/-! Claim C1. -/

/-- Claim C1, counterexample: the claim predicts `5.0` for `"a.5"` (first
maximal run of digits), `1.2` for `"1.2.3"` (digits with at most one decimal
point) and absence for `"."` (no digit); the code instead matches `[\d.]+`,
returning `0.5` for `"a.5"` and raising `ValueError` inside `float` on
`"1.2.3"` and on `"."`. -/
theorem c1_price_counterexample :
    extract_price (some "a.5") = .ok (some (mkRat 1 2)) ∧
    extract_price (some "a.5") ≠ .ok (some 5) ∧
    extract_price (some "1.2.3") = .error () ∧
    extract_price (some ".") = .error () := by decide

/-- Claim C1, amended: for absent or empty input `extract_price` returns
absent; otherwise it scans for the first maximal run of digit-or-dot
characters, returns absent when there is none, returns the run's exact
decimal value when the run has at least one digit and at most one dot, and
raises otherwise. -/
theorem c1_price_normalize (txt : Option String) :
    extract_price txt = normalize_spec txt := by
  cases txt with
  | none => rfl
  | some t =>
      by_cases ht : t = ""
      · simp [extract_price, normalize_spec, ht]
      · simp [extract_price, normalize_spec, ht, spec_scan_eq_search]

/-! Claim C2. -/

/-- Claim C2, code bug: on the empty listing collection (the all-pages-fail
scenario) `analyze_keywords` does not return an empty keyword collection; it
raises, because `pd.DataFrame([])` has no columns and `df['title']` is a
`KeyError`. -/
theorem c2_empty_corpus_bug (ranker : String → List (ℚ × String)) :
    analyze_keywords ranker [] = .error () := rfl

/-! Card-level helper lemmas. -/

/-- A successfully processed card determines every field of its listing. -/
theorem process_card_eq_ok {polarity : String → ℚ} {base_url : String}
    {card : Card} {l : Listing}
    (h : process_card polarity base_url card = .ok l) :
    extract_price (card.priceText.map pyStrip) = .ok l.price ∧
    l.title = card.titleText.map pyStrip ∧
    l.sentiment = analyze_sentiment polarity (card.titleText.map pyStrip) ∧
    href_lookup base_url card.link = .ok l.url := by
  revert h
  unfold process_card
  cases he : extract_price (card.priceText.map pyStrip) with
  | error e => intro h; exact absurd h (by simp [Bind.bind, Except.bind])
  | ok p =>
      cases hh : href_lookup base_url card.link with
      | error e => intro h; exact absurd h (by simp [Bind.bind, Except.bind])
      | ok u =>
          intro h
          simp only [Bind.bind, Except.bind, Except.ok.injEq] at h
          subst h
          exact ⟨rfl, rfl, rfl, rfl⟩

/-- Every listing the card loop keeps has a truthy price. -/
theorem mem_process_cards_truthy {polarity : String → ℚ} {base_url : String} :
    ∀ (cards : List Card) (l : Listing),
      l ∈ process_cards polarity base_url cards → truthyPrice l.price = true := by
  intro cards
  induction cards with
  | nil => intro l h; simp [process_cards] at h
  | cons c cs ih =>
      intro l h
      cases hpc : process_card polarity base_url c with
      | error e =>
          simp only [process_cards, hpc] at h
          exact ih l h
      | ok l0 =>
          simp only [process_cards, hpc] at h
          by_cases ht : truthyPrice l0.price = true
          · rw [if_pos ht] at h
            rcases List.mem_cons.mp h with h1 | h1
            · rw [h1]; exact ht
            · exact ih l h1
          · rw [if_neg ht] at h
            exact ih l h

/-- A truthy price is a present, nonzero price. -/
theorem truthyPrice_spec {o : Option ℚ} (h : truthyPrice o = true) :
    ∃ p, o = some p ∧ p ≠ 0 := by
  cases o with
  | none => simp [truthyPrice] at h
  | some q => exact ⟨q, rfl, by simpa [truthyPrice] using h⟩

/-! Claim C5. -/

/-- Claim C5: for every card list, a listing with absent price never appears
in the card loop's output; the filter `if listing['price']:` sits inside
extraction. -/
theorem c5_absent_price_excluded (polarity : String → ℚ) (base_url : String)
    (cards : List Card) :
    ∀ l ∈ process_cards polarity base_url cards, l.price ≠ none := by
  intro l hl hn
  obtain ⟨p, hp, -⟩ := truthyPrice_spec (mem_process_cards_truthy cards l hl)
  rw [hn] at hp
  exact Option.noConfusion hp

/-- Witness for C5 at a concrete page. -/
theorem c5_absent_price_excluded_witness : L50.price ≠ none :=
  c5_absent_price_excluded polarity0 baseB [card50] L50 (by decide)

/-! Claim C10. -/

/-- Claim C10: a card whose title block is present with whitespace-only text
yields a listing whose `title` is the present empty string while `sentiment`
is absent, because `analyze_sentiment` bypasses the scorer for every falsy
text. -/
theorem c10_blank_title_sentiment (polarity : String → ℚ) (base_url : String)
    (card : Card) (l : Listing)
    (ht : card.titleText.map pyStrip = some "")
    (h : process_card polarity base_url card = .ok l) :
    l.title = some "" ∧ l.sentiment = none := by
  obtain ⟨-, h2, h3, -⟩ := process_card_eq_ok h
  refine ⟨h2.trans ht, ?_⟩
  rw [h3, ht]
  rfl

/-- Witness for C10 at a concrete card. -/
theorem c10_blank_title_sentiment_witness : LWS.title = some "" ∧ LWS.sentiment = none :=
  c10_blank_title_sentiment polarity0 baseB cardWS LWS (by decide) (by decide)

/-! Claim C6. -/

/-- Claim C6, counterexample: a card with a present price whose link lacks the
target attribute does not yield a listing with absent `url` as the claim
states; `card.find('a')['href']` raises `KeyError` and the card is skipped
entirely. -/
theorem c6_url_counterexample :
    process_card polarity0 baseB cardNoHref = .error () ∧
    process_cards polarity0 baseB [cardNoHref] = [] := by decide

/-- Claim C6, amended: on a successfully processed card, `url` is the site
origin concatenated with the link's target when a link with that attribute is
present, and absent when no link is present; but a card whose link lacks the
attribute raises and is skipped, yielding no listing at all. -/
theorem c6_url_field (polarity : String → ℚ) (base_url : String) (card : Card) :
    (∀ l, process_card polarity base_url card = .ok l →
        l.url = match card.link with
          | some (some h) => some (base_url ++ h)
          | _ => none) ∧
    (card.link = some none → process_card polarity base_url card = .error ()) := by
  constructor
  · intro l h
    obtain ⟨-, -, -, h4⟩ := process_card_eq_ok h
    cases hk : card.link with
    | none =>
        rw [hk] at h4
        simpa [href_lookup] using h4.symm
    | some o =>
        cases o with
        | none =>
            rw [hk] at h4
            simp [href_lookup] at h4
        | some s =>
            rw [hk] at h4
            simpa [href_lookup] using h4.symm
  · intro hk
    unfold process_card
    cases he : extract_price (card.priceText.map pyStrip) with
    | error e => rfl
    | ok p => simp [hk, href_lookup, Bind.bind, Except.bind]

/-- Witness for C6 at two concrete cards: one with a link carrying `href`,
one with a link lacking it. -/
theorem c6_url_field_witness :
    L50.url = some (baseB ++ "/p1") ∧
    process_card polarity0 baseB cardNoHref = .error () :=
  ⟨(c6_url_field polarity0 baseB card50).1 L50 (by decide),
   (c6_url_field polarity0 baseB cardNoHref).2 rfl⟩

/-! Claim C9. -/

/-- Claim C9: retention is decided by truthiness of the parsed price, so a
card whose price text parses to `0.0` is dropped even though its price is
present, and every listing of the final collection has a present nonzero
price. -/
theorem c9_zero_price_excluded :
    (∀ (polarity : String → ℚ) (base_url : String) (c : Card) (cs : List Card),
        extract_price (c.priceText.map pyStrip) = .ok (some 0) →
        process_cards polarity base_url (c :: cs) = process_cards polarity base_url cs) ∧
    (∀ (polarity : String → ℚ) (base_url : String)
        (fetch : Nat → Except Unit Page) (maxPages : Nat),
        ∀ l ∈ (scrape_listings polarity base_url fetch maxPages).2,
          ∃ p, l.price = some p ∧ p ≠ 0) := by
  constructor
  · intro polarity base_url c cs hp
    cases hpc : process_card polarity base_url c with
    | error e => simp [process_cards, hpc]
    | ok l0 =>
        obtain ⟨h1, -, -, -⟩ := process_card_eq_ok hpc
        rw [hp] at h1
        have hprice : l0.price = some 0 := (Except.ok.inj h1).symm
        simp [process_cards, hpc, truthyPrice, hprice]
  · intro polarity base_url fetch maxPages l hl
    simp only [scrape_listings, List.mem_flatten, List.mem_map] at hl
    obtain ⟨comp, ⟨n, -, hcomp⟩, hmem⟩ := hl
    have hcards : truthyPrice l.price = true := by
      rw [← hcomp] at hmem
      cases hf : fetch n with
      | error e => simp [process_page, hf] at hmem
      | ok pg =>
          by_cases hs : pg.status = 200
          · simp only [process_page, hf, hs] at hmem
            simp at hmem
            exact mem_process_cards_truthy pg.cards l hmem
          · simp [process_page, hf, hs] at hmem
    exact truthyPrice_spec hcards

/-- Witness for C9: a concrete `0 Lakh` card is dropped, and a concrete
listing of a concrete run has a nonzero price. -/
theorem c9_zero_price_excluded_witness :
    process_cards polarity0 baseB (card0 :: [card50]) = process_cards polarity0 baseB [card50] ∧
    ∃ p, L50.price = some p ∧ p ≠ 0 :=
  ⟨c9_zero_price_excluded.1 polarity0 baseB card0 [card50] (by decide),
   c9_zero_price_excluded.2 polarity0 baseB fetch200 1 L50 (by decide)⟩

/-! Orchestrator helper definitions and lemmas. -/

/-- Page `n`'s fetch came back with HTTP status 200. -/
def fetchOk200 (fetch : Nat → Except Unit Page) (n : Nat) : Bool :=
  match fetch n with
  | .ok pg => pg.status == 200
  | .error _ => false

/-- Number of page iterations recorded in a trace. -/
def countPageStarts (trace : List Event) : Nat :=
  (trace.filter fun e => match e with | .pageStart _ => true | _ => false).length

/-- Number of `sleep(2)` calls recorded in a trace. -/
def countSleeps (trace : List Event) : Nat :=
  (trace.filter fun e => match e with | .sleep => true | _ => false).length

theorem countSleeps_append (a b : List Event) :
    countSleeps (a ++ b) = countSleeps a + countSleeps b := by
  simp [countSleeps, List.filter_append]

theorem countPageStarts_append (a b : List Event) :
    countPageStarts (a ++ b) = countPageStarts a + countPageStarts b := by
  simp [countPageStarts, List.filter_append]

/-- One page iteration sleeps exactly when its fetch returned 200. -/
theorem countSleeps_process_page (polarity : String → ℚ) (base_url : String)
    (fetch : Nat → Except Unit Page) (n : Nat) :
    countSleeps (process_page polarity base_url fetch n).1
      = if fetchOk200 fetch n then 1 else 0 := by
  cases hf : fetch n with
  | error e => simp only [process_page, fetchOk200, hf]; rfl
  | ok pg =>
      by_cases hs : pg.status = 200
      · simp [process_page, fetchOk200, hf, hs, countSleeps]
      · simp [process_page, fetchOk200, hf, hs, countSleeps]

/-- Every page iteration records exactly one `pageStart`. -/
theorem countPageStarts_process_page (polarity : String → ℚ) (base_url : String)
    (fetch : Nat → Except Unit Page) (n : Nat) :
    countPageStarts (process_page polarity base_url fetch n).1 = 1 := by
  cases hf : fetch n with
  | error e => simp only [process_page, hf]; rfl
  | ok pg =>
      by_cases hs : pg.status = 200
      · simp [process_page, hf, hs, countPageStarts]
      · simp [process_page, hf, hs, countPageStarts]

/-- A page whose fetch did not come back 200 contributes no listings. -/
theorem process_page_listings_nil {polarity : String → ℚ} {base_url : String}
    {fetch : Nat → Except Unit Page} {n : Nat} (h : fetchOk200 fetch n = false) :
    (process_page polarity base_url fetch n).2 = [] := by
  cases hf : fetch n with
  | error e => simp [process_page, hf]
  | ok pg =>
      simp only [fetchOk200, hf] at h
      have hs : pg.status ≠ 200 := by
        intro heq
        simp [heq] at h
      simp [process_page, hf, hs]

theorem countSleeps_flatten (polarity : String → ℚ) (base_url : String)
    (fetch : Nat → Except Unit Page) :
    ∀ ns : List Nat,
      countSleeps ((ns.map fun n => (process_page polarity base_url fetch n).1).flatten)
        = (ns.filter (fetchOk200 fetch)).length := by
  intro ns
  induction ns with
  | nil => rfl
  | cons n ns ih =>
      rw [List.map_cons, List.flatten_cons, countSleeps_append,
        countSleeps_process_page, ih, List.filter_cons]
      by_cases hb : fetchOk200 fetch n
      · simp [hb, Nat.add_comm]
      · simp [hb]

theorem countPageStarts_flatten (polarity : String → ℚ) (base_url : String)
    (fetch : Nat → Except Unit Page) :
    ∀ ns : List Nat,
      countPageStarts ((ns.map fun n => (process_page polarity base_url fetch n).1).flatten)
        = ns.length := by
  intro ns
  induction ns with
  | nil => rfl
  | cons n ns ih =>
      rw [List.map_cons, List.flatten_cons, countPageStarts_append,
        countPageStarts_process_page, ih, List.length_cons]
      exact Nat.add_comm 1 ns.length

/-! Claim C4. -/

/-- Claim C4, counterexample: in a one-page run whose fetch answers HTTP 500,
the trace records the page iteration and the failure log but no pacing delay:
`continue` at the status check jumps past `sleep(2)`. -/
theorem c4_pacing_counterexample :
    (scrape_listings polarity0 baseB fetch500 1).1 = [.pageStart 1, .fetchFail 1] ∧
    countSleeps (scrape_listings polarity0 baseB fetch500 1).1 = 0 := by decide

/-- Claim C4, amended: the pacing delay runs after exactly the pages whose
fetch succeeded with status 200; pages whose fetch fails (non-success status
or transport error) continue to the next index without the delay. -/
theorem c4_pacing_after_success (polarity : String → ℚ) (base_url : String)
    (fetch : Nat → Except Unit Page) (maxPages : Nat) :
    countSleeps (scrape_listings polarity base_url fetch maxPages).1
      = ((pagesRange maxPages).filter (fetchOk200 fetch)).length :=
  countSleeps_flatten polarity base_url fetch (pagesRange maxPages)

/-! Claim C7. -/

/-- Claim C7: a run with positive `maxPages` performs exactly `maxPages` page
iterations, every page's extracted listings appear in the returned
collection, and a run in which every page fails returns the empty collection
(a normal return, not an error). -/
theorem c7_all_pages_visited (polarity : String → ℚ) (base_url : String)
    (fetch : Nat → Except Unit Page) (maxPages : Nat) (_pos : 0 < maxPages) :
    countPageStarts (scrape_listings polarity base_url fetch maxPages).1 = maxPages ∧
    (∀ n ∈ pagesRange maxPages,
        List.Sublist (process_page polarity base_url fetch n).2
          (scrape_listings polarity base_url fetch maxPages).2) ∧
    ((∀ n ∈ pagesRange maxPages, fetchOk200 fetch n = false) →
        (scrape_listings polarity base_url fetch maxPages).2 = []) := by
  refine ⟨?_, ?_, ?_⟩
  · exact (countPageStarts_flatten polarity base_url fetch (pagesRange maxPages)).trans
      (by simp [pagesRange])
  · intro n hn
    exact List.sublist_flatten_of_mem (List.mem_map_of_mem _ hn)
  · intro hall
    apply List.flatten_eq_nil_iff.mpr
    intro x hx
    simp only [List.mem_map] at hx
    obtain ⟨n, hn, rfl⟩ := hx
    exact process_page_listings_nil (hall n hn)

/-- Witness for C7: the all-failure two-page run visits both pages and
returns the empty collection. -/
theorem c7_all_pages_visited_witness :
    countPageStarts (scrape_listings polarity0 baseB fetch500 2).1 = 2 ∧
    (scrape_listings polarity0 baseB fetch500 2).2 = [] :=
  ⟨(c7_all_pages_visited polarity0 baseB fetch500 2 (by decide)).1,
   (c7_all_pages_visited polarity0 baseB fetch500 2 (by decide)).2.2 (by decide)⟩

/-! Keyword helper lemmas. -/

theorem mem_of_mem_dedupPairsAux :
    ∀ (xs seen : List KeywordEntry) (x : KeywordEntry),
      x ∈ dedupPairsAux seen xs → x ∈ xs := by
  intro xs
  induction xs with
  | nil => intro seen x h; simp [dedupPairsAux] at h
  | cons a as ih =>
      intro seen x h
      simp only [dedupPairsAux] at h
      by_cases ha : a ∈ seen
      · rw [if_pos ha] at h
        exact List.mem_cons_of_mem a (ih seen x h)
      · rw [if_neg ha] at h
        rcases List.mem_cons.mp h with h1 | h1
        · rw [h1]; exact List.mem_cons_self a as
        · exact List.mem_cons_of_mem a (ih _ x h1)

theorem not_mem_seen_of_mem_dedupPairsAux :
    ∀ (xs seen : List KeywordEntry) (x : KeywordEntry),
      x ∈ dedupPairsAux seen xs → x ∉ seen := by
  intro xs
  induction xs with
  | nil => intro seen x h; simp [dedupPairsAux] at h
  | cons a as ih =>
      intro seen x h
      simp only [dedupPairsAux] at h
      by_cases ha : a ∈ seen
      · rw [if_pos ha] at h
        exact ih seen x h
      · rw [if_neg ha] at h
        rcases List.mem_cons.mp h with h1 | h1
        · rw [h1]; exact ha
        · intro hs
          exact ih _ x h1 (List.mem_cons_of_mem a hs)

theorem pairwise_ne_dedupPairsAux :
    ∀ (xs seen : List KeywordEntry), (dedupPairsAux seen xs).Pairwise (· ≠ ·) := by
  intro xs
  induction xs with
  | nil => intro seen; exact List.Pairwise.nil
  | cons a as ih =>
      intro seen
      simp only [dedupPairsAux]
      by_cases ha : a ∈ seen
      · rw [if_pos ha]; exact ih seen
      · rw [if_neg ha]
        refine List.Pairwise.cons ?_ (ih (a :: seen))
        intro y hy
        have := not_mem_seen_of_mem_dedupPairsAux as (a :: seen) y hy
        intro hay
        exact this (hay ▸ List.mem_cons_self a seen)

/-- Entries surviving the whole keyword pipeline come from the ranker's
pairs. -/
theorem mem_entries_of_mem_process_keywords {pairs : List (ℚ × String)}
    {e : KeywordEntry} (h : e ∈ process_keywords pairs) :
    e ∈ pairs.map fun p => KeywordEntry.mk p.1 p.2 := by
  have h1 := (List.take_sublist 20
    ((dedupPairs (pairs.map fun p => KeywordEntry.mk p.1 p.2)).insertionSort scoreGE)).subset h
  have h2 := (List.perm_insertionSort scoreGE
    (dedupPairs (pairs.map fun p => KeywordEntry.mk p.1 p.2))).mem_iff.mp h1
  exact mem_of_mem_dedupPairsAux _ [] e h2

/-- The rows surviving the pipeline are pairwise distinct as rows. -/
theorem pairwise_ne_process_keywords (pairs : List (ℚ × String)) :
    (process_keywords pairs).Pairwise (· ≠ ·) := by
  have h1 := pairwise_ne_dedupPairsAux (pairs.map fun p => KeywordEntry.mk p.1 p.2) []
  have h2 : ((dedupPairs (pairs.map fun p => KeywordEntry.mk p.1 p.2)).insertionSort
      scoreGE).Pairwise (· ≠ ·) :=
    ((List.perm_insertionSort scoreGE _).pairwise_iff fun h => h.symm).mpr h1
  exact List.Pairwise.sublist (List.take_sublist _ _) h2

/-- No two entries of a keyword list share a phrase. -/
def keywordsUnique (l : List KeywordEntry) : Prop :=
  l.Pairwise fun a b => a.keyword ≠ b.keyword

instance (l : List KeywordEntry) : Decidable (keywordsUnique l) := by
  unfold keywordsUnique
  infer_instance

/-! Claim C3. -/

/-- Claim C3, counterexample: `drop_duplicates()` compares whole rows, so two
ranker pairs with the same phrase but different scores both survive, and the
output carries the phrase twice. -/
theorem c3_dedup_counterexample :
    ¬ keywordsUnique (process_keywords [(2, "flat"), (1, "flat")]) := by decide

/-- Claim C3, amended: pairs are deduplicated by exact (score, phrase) row
equality, not by phrase; keywords are unique in the output provided any two
ranker pairs with the same phrase carry the same score (which upstream
duplicates are expected to do). -/
theorem c3_dedup_unique_keywords (pairs : List (ℚ × String))
    (h : ∀ p ∈ pairs, ∀ q ∈ pairs, Prod.snd p = Prod.snd q → Prod.fst p = Prod.fst q) :
    keywordsUnique (process_keywords pairs) := by
  refine List.Pairwise.imp_of_mem ?_ (pairwise_ne_process_keywords pairs)
  intro a b ha hb hne hkeq
  obtain ⟨p, hp, hpe⟩ := List.mem_map.mp (mem_entries_of_mem_process_keywords ha)
  obtain ⟨q, hq, hqe⟩ := List.mem_map.mp (mem_entries_of_mem_process_keywords hb)
  apply hne
  rw [← hpe, ← hqe]
  have hkey : p.2 = q.2 := by
    have e1 : p.2 = a.keyword := by rw [← hpe]
    have e2 : q.2 = b.keyword := by rw [← hqe]
    rw [e1, e2, hkeq]
  have hscore := h p hp q hq hkey
  rw [hscore, hkey]

/-- Witness for C3 on a concrete ranker output with a duplicated pair. -/
theorem c3_dedup_unique_keywords_witness :
    (∀ p ∈ [((2:ℚ), "flat"), (2, "flat"), (1, "sea view")],
      ∀ q ∈ [((2:ℚ), "flat"), (2, "flat"), (1, "sea view")],
        Prod.snd p = Prod.snd q → Prod.fst p = Prod.fst q) ∧
    keywordsUnique (process_keywords [((2:ℚ), "flat"), (2, "flat"), (1, "sea view")]) :=
  ⟨by decide, c3_dedup_unique_keywords _ (by decide)⟩

/-! Claim C8. -/

/-- Ranker output for the C8 counterexample: the phrase a carries twenty-one
distinct scores and the phrase b one low score. -/
def pairsC8 : List (ℚ × String) :=
  ((List.range 20).map fun i => ((mkRat (i + 2) 1 : ℚ), "a")) ++ [(1, "b")]

/-- Claim C8, counterexample: fewer than 20 distinct phrases exist (only two)
yet the phrase b is not returned, because row-level deduplication keeps
twenty-one rows and `head(20)` cuts the lowest-scored one. -/
theorem c8_truncation_counterexample :
    "b" ∈ pairsC8.map Prod.snd ∧
    (pairsC8.map Prod.snd).dedup = ["a", "b"] ∧
    "b" ∉ (process_keywords pairsC8).map KeywordEntry.keyword := by decide

/-- Claim C8, amended: the output has at most 20 entries and is sorted
non-increasing by score; when at most 20 distinct (score, phrase) rows
survive deduplication, all of them are returned. -/
theorem c8_top20_sorted (pairs : List (ℚ × String)) :
    (process_keywords pairs).length ≤ 20 ∧
    (process_keywords pairs).Sorted scoreGE ∧
    ((dedupPairs (pairs.map fun p => KeywordEntry.mk p.1 p.2)).length ≤ 20 →
      ∀ e ∈ dedupPairs (pairs.map fun p => KeywordEntry.mk p.1 p.2),
        e ∈ process_keywords pairs) := by
  refine ⟨List.length_take_le _ _, ?_, ?_⟩
  · exact List.Pairwise.sublist (List.take_sublist _ _)
      (List.sorted_insertionSort scoreGE _)
  · intro hlen e he
    have hperm := List.perm_insertionSort scoreGE
      (dedupPairs (pairs.map fun p => KeywordEntry.mk p.1 p.2))
    have hlen2 : ((dedupPairs (pairs.map fun p => KeywordEntry.mk p.1 p.2)).insertionSort
        scoreGE).length ≤ 20 := by
      rw [hperm.length_eq]
      exact hlen
    unfold process_keywords
    rw [List.take_of_length_le hlen2]
    exact hperm.mem_iff.mpr he

/-- Witness for C8 on a concrete two-pair ranker output. -/
theorem c8_top20_sorted_witness :
    (process_keywords [((2:ℚ), "x"), (1, "y")]).length ≤ 20 ∧
    KeywordEntry.mk 2 "x" ∈ process_keywords [((2:ℚ), "x"), (1, "y")] :=
  ⟨(c8_top20_sorted [((2:ℚ), "x"), (1, "y")]).1,
   (c8_top20_sorted [((2:ℚ), "x"), (1, "y")]).2.2 (by decide)
     (KeywordEntry.mk 2 "x") (by decide)⟩

end RealEstate
